import Mathlib

/-!
Verification of the ai-todo-manager core pipelines.

This file embeds, in Lean, the natural-language-to-task extraction pipeline
(`preprocessInput`, `validateInput`, `postprocessTodoData` and the temporal
context computed in the extraction route) and the summary/analytics pipeline
(`filterTodosByPeriod`, `urgentTasks`, the deadline-compliance computation and
the control flow of the summarize route), and proves or refutes the frozen
specification claims about them.

Conventions of the embedding:
- Strings are `List Char` (`Str`), so JavaScript string operations (`trim`,
  `substring`, concatenation, length) become list operations.
- Instants are `Int` milliseconds since the Unix epoch; the local time zone is
  identified with UTC (the source runs every computation in one zone).
- date-fns `parseISO` never throws: on a malformed argument it returns an
  Invalid Date, and `isBefore` / `isAfter` / `isWithinInterval` on an Invalid
  Date evaluate to `false` (`NaN` comparisons). The embedding models a date
  value as `Option Int`, with `none` standing for Invalid Date, and each
  comparison helper reproduces the `NaN` behaviour.  The `try/catch` blocks of
  the source around `parseISO` are consequently dead code and are not modelled.
- The embedded `parseISO` covers the ISO-8601 subset exercised by the
  application: `YYYY-MM-DD`, optionally followed by `Thh:mm` or `Thh:mm:ss`.
-/

namespace AITodo

/-- JavaScript strings, embedded as lists of characters. -/
abbrev Str := List Char

/-- Convert a Lean string literal to the embedded string type. -/
def strL (s : String) : Str := s.toList

/-- Whitespace test used for `trim` and for the `\s` character class. -/
def isWS (c : Char) : Bool := c.isWhitespace

/-- Drop trailing whitespace. -/
def dropEndWS (l : Str) : Str := (l.reverse.dropWhile isWS).reverse

/-- JavaScript `String.prototype.trim`: drop leading and trailing whitespace. -/
def trimL (l : Str) : Str := dropEndWS (l.dropWhile isWS)

/-- JavaScript `a || b` for strings: the empty string is falsy. -/
def jsOrS (a b : Str) : Str := if a = [] then b else a

/-- JavaScript `a || b` where `a` is a nullable string: `null` and `""` are falsy. -/
def jsOrOpt (a : Option Str) (b : Str) : Str :=
  match a with
  | none => b
  | some s => jsOrS s b

/-- JavaScript truthiness of a nullable string field. -/
def jsTruthy (o : Option Str) : Bool :=
  match o with
  | none => false
  | some s => !s.isEmpty

/-- One step of collapsing whitespace runs; the flag records whether the
previous character belonged to a whitespace run (source: `replace(/\s+/g, " ")`). -/
def collapseAux : Bool → Str → Str
  | _, [] => []
  | prevWS, c :: rest =>
    if isWS c then
      if prevWS then collapseAux true rest
      else ' ' :: collapseAux true rest
    else c :: collapseAux false rest

/-- Embedding of `preprocessInput` (src/unnamed/part_009, lines 23-36):
trim, then collapse each whitespace run to a single space.  The case
normalization step of the source is commented out there and is not modelled. -/
def preprocessInput (input : Str) : Str := collapseAux false (trimL input)

/-- The four rejection reasons of the input sanitizer, in source order. -/
inductive ValidationError
  | emptyInput
  | tooShort
  | tooLong
  | noMeaningfulContent
deriving DecidableEq, Repr

/-- Embedding of `validateInput` (src/unnamed/part_009, lines 42-68).
`isLN` abstracts the Unicode character class `[\p{L}\p{N}]` (letter or digit)
of the source's `specialCharOnlyPattern`; the validator's structure does not
depend on which characters count as letters or digits.  Returns `none` when
the input is accepted. -/
def validateInput (isLN : Char → Bool) (input : Str) : Option ValidationError :=
  if input = [] ∨ (trimL input).length = 0 then some .emptyInput
  else if (trimL input).length < 2 then some .tooShort
  else if 500 < input.length then some .tooLong
  else if trimL input ≠ [] ∧ (trimL input).all (fun c => !(isLN c)) then
    some .noMeaningfulContent
  else none

/-- Validation as worded by the specification claim: on the normalized text,
in order and short-circuiting: empty after trimming, trimmed length below 2,
length above 500, content with no letter and no digit; otherwise accepted. -/
def validateInputSpec (isLN : Char → Bool) (input : Str) : Option ValidationError :=
  if trimL input = [] then some .emptyInput
  else if (trimL input).length < 2 then some .tooShort
  else if 500 < input.length then some .tooLong
  else if (trimL input).all (fun c => !(isLN c)) then some .noMeaningfulContent
  else none

/-! ### Instants and the calendar -/

/-- Milliseconds per day. -/
def msPerDay : Int := 86400000

/-- Epoch day index of an instant (floor division, as JavaScript dates do). -/
def epochDay (t : Int) : Int := t / msPerDay

/-- date-fns `startOfDay`: midnight of the day containing `t`. -/
def startOfDayI (t : Int) : Int := epochDay t * msPerDay

/-- date-fns `endOfDay`: last millisecond of the day containing `t`. -/
def endOfDayI (t : Int) : Int := startOfDayI t + msPerDay - 1

/-- JavaScript `Date.prototype.getDay`: 0 = Sunday … 6 = Saturday.
1970-01-01 (epoch day 0) was a Thursday, day number 4. -/
def getDayI (t : Int) : Int := (epochDay t + 4) % 7

/-- date-fns `addDays`. -/
def addDaysI (t : Int) (k : Int) : Int := t + k * msPerDay

/-- date-fns `startOfWeek` with `weekStartsOn: 1` (Monday). -/
def startOfWeekI (t : Int) : Int := startOfDayI t - (getDayI t - 1) % 7 * msPerDay

/-- date-fns `endOfWeek` with `weekStartsOn: 1`: last millisecond of Sunday. -/
def endOfWeekI (t : Int) : Int := startOfWeekI t + 7 * msPerDay - 1

/-- Gregorian leap-year test. -/
def isLeap (y : Int) : Bool := y % 4 == 0 && (y % 100 != 0 || y % 400 == 0)

/-- Number of days in month `m` of year `y`. -/
def daysInMonth (y : Int) (m : Nat) : Nat :=
  if m = 2 then (if isLeap y then 29 else 28)
  else if m = 4 ∨ m = 6 ∨ m = 9 ∨ m = 11 then 30
  else 31

/-- Epoch day index of the civil date `y-m-d` (standard days-from-civil
computation; divisions are exact or on non-negative operands). -/
def daysFromCivil (y : Int) (m d : Nat) : Int :=
  let yAdj : Int := if m ≤ 2 then y - 1 else y
  let era : Int := (if 0 ≤ yAdj then yAdj else yAdj - 399) / 400
  let yoe : Int := yAdj - era * 400
  let mp : Int := ((m : Int) + 9) % 12
  let doy : Int := (153 * mp + 2) / 5 + ((d : Int) - 1)
  let doe : Int := yoe * 365 + yoe / 4 - yoe / 100 + doy
  era * 146097 + doe - 719468

/-- Numeric value of a decimal digit character. -/
def digitVal (c : Char) : Option Nat :=
  if c.isDigit then some (c.toNat - 48) else none

/-- Parse two decimal digit characters. -/
def parse2 (a b : Char) : Option Nat :=
  match digitVal a, digitVal b with
  | some x, some y => some (10 * x + y)
  | _, _ => none

/-- Parse four decimal digit characters. -/
def parse4 (a b c d : Char) : Option Nat :=
  match digitVal a, digitVal b, digitVal c, digitVal d with
  | some x, some y, some z, some w => some (1000 * x + 100 * y + 10 * z + w)
  | _, _, _, _ => none

/-- Parse the time part following the `T` separator: `hh:mm` or `hh:mm:ss`,
returning milliseconds since midnight. -/
def parseTimeMs : Str → Option Int
  | [h1, h2, ':', m1, m2] =>
    match parse2 h1 h2, parse2 m1 m2 with
    | some h, some m =>
      if h ≤ 23 ∧ m ≤ 59 then some (((h * 60 + m) * 60 * 1000 : Nat) : Int) else none
    | _, _ => none
  | [h1, h2, ':', m1, m2, ':', s1, s2] =>
    match parse2 h1 h2, parse2 m1 m2, parse2 s1 s2 with
    | some h, some m, some s =>
      if h ≤ 23 ∧ m ≤ 59 ∧ s ≤ 59 then
        some ((((h * 60 + m) * 60 + s) * 1000 : Nat) : Int)
      else none
    | _, _, _ => none
  | _ => none

/-- Embedding of date-fns `parseISO` on the ISO-8601 subset used by the
application: a calendar date `YYYY-MM-DD`, optionally followed by `Thh:mm` or
`Thh:mm:ss`.  `none` models the Invalid Date returned on malformed input;
`parseISO` never throws an exception. -/
def parseISO : Str → Option Int
  | y1 :: y2 :: y3 :: y4 :: '-' :: m1 :: m2 :: '-' :: d1 :: d2 :: rest =>
    match parse4 y1 y2 y3 y4, parse2 m1 m2, parse2 d1 d2 with
    | some y, some m, some d =>
      if 1 ≤ m ∧ m ≤ 12 ∧ 1 ≤ d ∧ d ≤ daysInMonth (y : Int) m then
        let dayMs := daysFromCivil (y : Int) m d * msPerDay
        match rest with
        | [] => some dayMs
        | 'T' :: tpart =>
          match parseTimeMs tpart with
          | some tm => some (dayMs + tm)
          | none => none
        | _ => none
      else none
    | _, _, _ => none
  | _ => none

/-- date-fns `isBefore` where the left date may be Invalid (`none`):
an Invalid Date compares `false` against everything. -/
def isBeforeJ (a : Option Int) (b : Int) : Bool :=
  match a with
  | none => false
  | some x => decide (x < b)

/-! ### The extraction post-processor -/

/-- The model output schema `parsedTodoSchema` (src/unnamed/part_009, lines
10-17): `due_date` is a plain string (the empty string playing the role of a
missing date, being falsy), `due_time` and `description` are nullable. -/
structure ParsedTodo where
  title : Str
  due_date : Str
  due_time : Option Str
  priority : Str
  category : Str
  description : Option Str
deriving DecidableEq, Repr

/-- The return shape of `postprocessTodoData`. -/
@[ext] structure ProcessedTodo where
  title : Str
  description : Str
  priority : Str
  category : Str
  due_date : Option Str
deriving DecidableEq, Repr

/-- First title repair step (src/unnamed/part_009, lines 86-92): start from
`parsedTodo.title || ""`; when its trimmed length is below 2, substitute the
first 20 characters of the trimmed original input. -/
def titleFallback (title orig : Str) : Str :=
  if (trimL (jsOrS title [])).length < 2 then (trimL orig).take 20 else jsOrS title []

/-- Second title repair step (src/unnamed/part_009, lines 94-97): truncate a
title longer than 100 characters to its first 97 characters plus `"..."`. -/
def titleTrunc (t1 : Str) : Str :=
  if 100 < t1.length then t1.take 97 ++ strL "..." else t1

/-- Full title repair of `postprocessTodoData` (src/unnamed/part_009, lines
85-100): fallback, truncation, final trim. -/
def repairTitle (title orig : Str) : Str :=
  trimL (titleTrunc (titleFallback title orig))

/-- Due date repair of `postprocessTodoData` (src/unnamed/part_009, lines
107-130): when a due date string is present (truthy), it is compared against
the start of the current day; a date strictly before it is replaced by
`currentDate`, otherwise the string is kept, and in both branches the time
component `due_time || "09:00"` plus `":00"` is appended after a `"T"`.  Note
that `parseISO` never throws, so the source's `catch` branch (which would set
the result to `null`) is unreachable; a malformed date string reaches the
`else` branch through `isBefore(Invalid Date, today) === false`. -/
def repairDueDate (due_date : Str) (due_time : Option Str) (currentDate : Str)
    (now : Int) : Option Str :=
  if due_date ≠ [] then
    if isBeforeJ (parseISO due_date) (startOfDayI now) then
      some (currentDate ++ strL "T" ++ jsOrOpt due_time (strL "09:00") ++ strL ":00")
    else
      some (due_date ++ strL "T" ++ jsOrOpt due_time (strL "09:00") ++ strL ":00")
  else none

/-- Embedding of `postprocessTodoData` (src/unnamed/part_009, lines 74-139).
`now` is the instant `new Date()` observed inside the function; `currentDate`
is the `yyyy-MM-dd` string supplied by the caller.  The `priority || "medium"`
and `category || "기타"` defaults of the source are modelled literally with
`jsOrS` (they are inert for schema-conforming model output, whose enum fields
are non-empty). -/
def postprocessTodoData (pt : ParsedTodo) (originalInput : Str) (currentDate : Str)
    (now : Int) : ProcessedTodo :=
  { title := repairTitle pt.title originalInput,
    description := jsOrOpt pt.description (jsOrS originalInput []),
    priority := jsOrS pt.priority (strL "medium"),
    category := jsOrS pt.category (strL "기타"),
    due_date := repairDueDate pt.due_date pt.due_time currentDate now }

/-! ### Temporal context of the extraction prompt -/

/-- Tomorrow (src/unnamed/part_009, line 257): `addDays(now, 1)`. -/
def tomorrowI (now : Int) : Int := addDaysI now 1

/-- Day after tomorrow (src/unnamed/part_009, line 286): `addDays(now, 2)`. -/
def dayAfterTomorrowI (now : Int) : Int := addDaysI now 2

/-- Offset to "this Friday" (src/unnamed/part_009, line 291):
`dow <= 5 ? 5 - dow : 5 + 7 - dow`. -/
def daysUntilFriday (now : Int) : Int :=
  let dow := getDayI now
  if dow ≤ 5 then 5 - dow else 5 + 7 - dow

/-- The "this Friday" instant of the temporal context. -/
def thisWeekFridayI (now : Int) : Int := addDaysI now (daysUntilFriday now)

/-- Offset to "next Monday" (src/unnamed/part_009, line 296):
`dow === 1 ? 7 : 8 - dow`. -/
def daysUntilNextMonday (now : Int) : Int :=
  let dow := getDayI now
  if dow = 1 then 7 else 8 - dow

/-- The "next Monday" instant of the temporal context. -/
def nextMondayI (now : Int) : Int := addDaysI now (daysUntilNextMonday now)

/-- The nearest Friday at or after `now`, as worded by the specification:
`now` plus the least non-negative number of days reaching weekday 5. -/
def specNearestFriday (now : Int) : Int := addDaysI now ((5 - getDayI now) % 7)

/-- The next Monday strictly after `now`, as worded by the specification:
`now` plus the least positive number of days reaching weekday 1. -/
def specNextMonday (now : Int) : Int :=
  addDaysI now (if (1 - getDayI now) % 7 = 0 then 7 else (1 - getDayI now) % 7)

/-! ### The summarize route -/

/-- A row of the `todos` table as read by the summarize route
(`TodoRow`, src/app/api/ai/summarize-todos/route.ts, lines 139-149). -/
structure TodoRow where
  id : Str
  user_id : Str
  title : Str
  description : Option Str
  priority : Str
  category : Str
  completed : Bool
  due_date : Option Str
  created_at : Str
deriving DecidableEq, Repr

/-- Embedding of `filterTodosByPeriod` (route.ts, lines 154-182): membership is
decided by the due instant when a due date string is present (truthy), falling
back to the creation instant; an instant is in the period when it lies in the
closed interval.  An Invalid Date (unparseable string) fails
`isWithinInterval`, so such rows are excluded — the source's `catch` fallback
to `created_at` is unreachable because `parseISO` does not throw. -/
def filterTodosByPeriod (todos : List TodoRow) (periodStart periodEnd : Int) :
    List TodoRow :=
  todos.filter (fun td =>
    let target : Option Int :=
      if jsTruthy td.due_date then parseISO (td.due_date.getD [])
      else if td.created_at ≠ [] then parseISO td.created_at
      else none
    match target with
    | some t => decide (periodStart ≤ t) && decide (t ≤ periodEnd)
    | none => false)

/-- `Math.ceil(a / b)` for integer `a` and positive integer `b`
(JavaScript computes the quotient as a float and rounds up). -/
def ceilDiv (a b : Int) : Int := -((-a) / b)

/-- The urgency test of the summarize route (route.ts, lines 396-410): an
incomplete task is urgent when its priority is `high`, or when it has a due
date whose instant is at most one day away by the `Math.ceil` computation
`daysUntilDue <= 1`.  An Invalid Date makes `daysUntilDue` `NaN` and the
comparison `false`. -/
def isUrgent (now : Int) (td : TodoRow) : Bool :=
  if td.completed then false
  else if td.priority = strL "high" then true
  else if jsTruthy td.due_date then
    match parseISO (td.due_date.getD []) with
    | some t => decide (ceilDiv (t - now) msPerDay ≤ 1)
    | none => false
  else false

/-- The urgent-task title list supplied to the model (route.ts, line 396-411),
computed over the in-period task list. -/
def urgentTasks (filteredTodos : List TodoRow) (now : Int) : List Str :=
  (filteredTodos.filter (isUrgent now)).map (fun td => td.title)

/-- The due instant of a task: its due date string parsed as an absolute
instant, when present and valid. -/
def dueInstant (td : TodoRow) : Option Int :=
  match td.due_date with
  | some ds => parseISO ds
  | none => none

/-- The specification's structural urgency definition: an incomplete task that
is high-priority or whose due instant is within one day of `now`, i.e. due no
later than `now` plus one day (an overdue task is already due, hence within
one day). -/
def urgentSpecB (now : Int) (td : TodoRow) : Bool :=
  !td.completed &&
    (decide (td.priority = strL "high") ||
      (match dueInstant td with
       | some t => decide (t ≤ now + msPerDay)
       | none => false))

/-- The in-period tasks carrying a due date string (route.ts, line 264). -/
def todosWithDueDate (todos : List TodoRow) : List TodoRow :=
  todos.filter (fun td => jsTruthy td.due_date)

/-- The on-time test of the summarize route (route.ts, lines 274-282): a
completed task passes `!isAfter(due, now) || isBefore(due, now)`.  On an
Invalid Date both `isAfter` and `isBefore` are `false`, so the disjunction is
`true`; the `catch` branch is unreachable. -/
def isOnTime (now : Int) (td : TodoRow) : Bool :=
  if !td.completed then false
  else
    match parseISO (td.due_date.getD []) with
    | some t => !decide (now < t) || decide (t < now)
    | none => true

/-- Deadline compliance rate (route.ts, lines 283-285):
on-time count over due-dated count, times 100; `0` when no task has a due
date. -/
def deadlineComplianceRate (todos : List TodoRow) (now : Int) : ℚ :=
  let wd := todosWithDueDate todos
  let onTime := wd.filter (isOnTime now)
  if 0 < wd.length then (onTime.length : ℚ) / (wd.length : ℚ) * 100 else 0

/-- The specification's compliance test: completed and due instant at most
`now`. -/
def compliantSpec (now : Int) (td : TodoRow) : Bool :=
  td.completed &&
    (match dueInstant td with
     | some t => decide (t ≤ now)
     | none => false)

/-- Deadline compliance rate as worded by the specification: over the
in-period tasks that have a due instant, the fraction that are completed with
due instant at most `now`, times 100; `0` when that subset is empty. -/
def deadlineComplianceRateSpec (todos : List TodoRow) (now : Int) : ℚ :=
  let wd := todos.filter (fun td => (dueInstant td).isSome)
  if wd.length = 0 then 0
  else ((wd.filter (compliantSpec now)).length : ℚ) / (wd.length : ℚ) * 100

/-! ### Control flow of the summarize route -/

/-- The parsed request body of the summarize route: `period` and `userId`
fields, each possibly absent. -/
structure SummarizeBody where
  period : Option Str
  userId : Option Str
deriving DecidableEq, Repr

/-- The model's summary object (`summarySchema`, route.ts, lines 11-16). -/
structure SummaryObj where
  summary : Str
  urgentTasks : List Str
  insights : List Str
  recommendations : List Str
deriving DecidableEq, Repr

/-- The environment a summarize request executes in: the cleaned API key, the
parsed body (`none` on a JSON parse failure), the identity provider's answer
(`none` when there is no valid session), the record store's answer, the
model's reply, and the current instant.  Statistics and prompt construction
are pure and do not influence control flow; the model reply is therefore
supplied as data. -/
structure SummarizeEnv where
  apiKey : Str
  body : Option SummarizeBody
  authUser : Option Str
  todosResult : Except Unit (List TodoRow)
  modelReply : SummaryObj
  now : Int

/-- Outcome of a summarize request: a summary object with HTTP 200, or an
error status. -/
inductive SummarizeResult
  | success (s : SummaryObj)
  | failure (status : Nat)
deriving DecidableEq, Repr

/-- JavaScript `String.prototype.startsWith`. -/
def startsWithJ (p l : Str) : Bool := decide (l.take p.length = p)

/-- Start of the requested period (route.ts, lines 108-121). -/
def periodStartOf (now : Int) (period : Str) : Int :=
  if period = strL "today" then startOfDayI now else startOfWeekI now

/-- End of the requested period (route.ts, lines 108-121). -/
def periodEndOf (now : Int) (period : Str) : Int :=
  if period = strL "today" then endOfDayI now else endOfWeekI now

/-- The canned empty-period response (route.ts, lines 190-199). -/
def emptySummary (period : Str) : SummaryObj :=
  { summary := if period = strL "today" then strL "오늘 예정된 할 일이 없습니다."
               else strL "이번 주 예정된 할 일이 없습니다.",
    urgentTasks := [], insights := [], recommendations := [] }

/-- Embedding of the summarize route handler `POST`
(src/app/api/ai/summarize-todos/route.ts, lines 22-199 and 432-564), up to the
point where the model's reply is returned.  The result is paired with the
number of record-store reads and the number of model invocations performed.
Checks appear in source order: API key, body parse, `period` validity,
`userId` validity, authentication (`401` when there is no session user or the
session user's id differs from the requested `userId`), store read, the
empty-period short-circuit, and finally the model call. -/
def summarizePost (env : SummarizeEnv) : SummarizeResult × Nat × Nat :=
  if env.apiKey = [] ∨ ¬ startsWithJ (strL "AIza") env.apiKey then (.failure 500, 0, 0)
  else
    match env.body with
    | none => (.failure 400, 0, 0)
    | some body =>
      match body.period with
      | none => (.failure 400, 0, 0)
      | some period =>
        if period ≠ strL "today" ∧ period ≠ strL "week" then (.failure 400, 0, 0)
        else
          match body.userId with
          | none => (.failure 400, 0, 0)
          | some userId =>
            if userId = [] then (.failure 400, 0, 0)
            else
              match env.authUser with
              | none => (.failure 401, 0, 0)
              | some uid =>
                if uid ≠ userId then (.failure 401, 0, 0)
                else
                  match env.todosResult with
                  | .error _ => (.failure 500, 1, 0)
                  | .ok todoList =>
                    let filteredTodos := filterTodosByPeriod todoList
                      (periodStartOf env.now period) (periodEndOf env.now period)
                    if filteredTodos.length = 0 then (.success (emptySummary period), 1, 0)
                    else (.success env.modelReply, 1, 1)

/-! ### Repackaging a result for a second post-processing pass -/

/-- Repackage a post-processor result as a model output, the way a second
post-processing pass receives its own prior output: the combined due date
string takes the place of `due_date` (`null` becoming the empty string, both
being falsy), and there is no separate time-of-day component. -/
def toParsed (r : ProcessedTodo) : ParsedTodo :=
  { title := r.title, due_date := r.due_date.getD [], due_time := none,
    priority := r.priority, category := r.category,
    description := some r.description }

/-! ### Concrete fixtures used by counterexamples and witnesses -/

/-- Model output whose `due_date` does not parse as a date. -/
def c1Input : ParsedTodo :=
  { title := strL "Buy milk", due_date := strL "not-a-date", due_time := none,
    priority := strL "medium", category := strL "기타", description := none }

/-- Model output with a valid future due date and an explicit time. -/
def c4Input : ParsedTodo :=
  { title := strL "Team meeting prep", due_date := strL "2025-10-13",
    due_time := some (strL "15:00"), priority := strL "high",
    category := strL "업무", description := some (strL "prepare the team meeting") }

/-- Model output with no due date at all. -/
def c4NullInput : ParsedTodo :=
  { title := strL "Water the plants", due_date := [], due_time := none,
    priority := strL "low", category := strL "기타", description := none }

/-- Model output with a past due date (three days before 2025-10-12) and an
explicit time. -/
def c2Input : ParsedTodo :=
  { title := strL "Quarterly report", due_date := strL "2025-10-09",
    due_time := some (strL "15:00"), priority := strL "high",
    category := strL "업무", description := some (strL "write the quarterly report") }

/-- Model output with a valid future due date and no time component. -/
def c9Input : ParsedTodo :=
  { title := strL "Dentist appointment", due_date := strL "2025-10-20",
    due_time := none, priority := strL "medium", category := strL "개인",
    description := none }

/-- A completed task due before the reference instant 2025-10-12T12:00. -/
def c7Row1 : TodoRow :=
  { id := strL "1", user_id := strL "u", title := strL "Ship the release",
    description := none, priority := strL "high", category := strL "업무",
    completed := true, due_date := some (strL "2025-10-10T12:00:00"),
    created_at := strL "2025-10-01T09:00:00" }

/-- An incomplete task due after the reference instant. -/
def c7Row2 : TodoRow :=
  { id := strL "2", user_id := strL "u", title := strL "Plan the offsite",
    description := none, priority := strL "low", category := strL "업무",
    completed := false, due_date := some (strL "2025-10-20T09:00:00"),
    created_at := strL "2025-10-02T09:00:00" }

/-- A two-task snapshot: one on-time completion, one open task. -/
def c7Todos : List TodoRow := [c7Row1, c7Row2]

/-- A summarize request environment that passes every check before
authentication, whose owner has no task in the period. -/
def c8Env : SummarizeEnv :=
  { apiKey := strL "AIzaSyTestKey",
    body := some { period := some (strL "today"), userId := some (strL "user-1") },
    authUser := some (strL "user-1"),
    todosResult := Except.ok [],
    modelReply := { summary := [], urgentTasks := [], insights := [], recommendations := [] },
    now := 1760270400000 }

/-- A summarize request environment whose session user differs from the
requested `userId`. -/
def c10Env : SummarizeEnv :=
  { apiKey := strL "AIzaSyTestKey",
    body := some { period := some (strL "week"), userId := some (strL "user-1") },
    authUser := some (strL "user-2"),
    todosResult := Except.ok [c7Row1],
    modelReply := { summary := [], urgentTasks := [], insights := [], recommendations := [] },
    now := 1760270400000 }

/-! ## Helper lemmas -/

theorem dropWhile_dropWhile (p : Char → Bool) (l : Str) :
    (l.dropWhile p).dropWhile p = l.dropWhile p := by
  induction l with
  | nil => rfl
  | cons c rest ih =>
    by_cases h : p c
    · simp [List.dropWhile_cons, h, ih]
    · simp [List.dropWhile_cons, h]

theorem dropEndWS_dropEndWS (l : Str) : dropEndWS (dropEndWS l) = dropEndWS l := by
  unfold dropEndWS
  rw [List.reverse_reverse, dropWhile_dropWhile]

theorem length_dropWhile_le (p : Char → Bool) (l : Str) :
    (l.dropWhile p).length ≤ l.length :=
  (List.dropWhile_suffix p).sublist.length_le

theorem dropEndWS_isPrefix (l : Str) : dropEndWS l <+: l := by
  have h2 := List.reverse_prefix.mpr (List.dropWhile_suffix (l := l.reverse) isWS)
  rwa [List.reverse_reverse] at h2

theorem dropWhile_eq_self_of_isPrefix {l P : Str} (h : l.dropWhile isWS = l)
    (hp : P <+: l) : P.dropWhile isWS = P := by
  match P, hp with
  | [], _ => rfl
  | c :: P', ⟨t, ht⟩ =>
    subst ht
    simp only [List.cons_append] at h
    by_cases hc : isWS c
    · exfalso
      have hlen := length_dropWhile_le isWS (P' ++ t)
      rw [List.dropWhile_cons, if_pos hc] at h
      rw [h] at hlen
      simp only [List.length_cons] at hlen
      omega
    · rw [List.dropWhile_cons, if_neg hc]

theorem trimL_trimL (l : Str) : trimL (trimL l) = trimL l := by
  unfold trimL
  have hX : (l.dropWhile isWS).dropWhile isWS = l.dropWhile isWS :=
    dropWhile_dropWhile _ _
  rw [dropWhile_eq_self_of_isPrefix hX (dropEndWS_isPrefix _), dropEndWS_dropEndWS]

theorem length_trimL_le (l : Str) : (trimL l).length ≤ l.length := by
  unfold trimL dropEndWS
  have h1 := length_dropWhile_le isWS l
  have h2 := length_dropWhile_le isWS (l.dropWhile isWS).reverse
  simp only [List.length_reverse] at *
  omega

theorem trimL_append_dots (x : Str) : ∃ w, trimL (x ++ strL "...") = w ++ strL "..." := by
  unfold trimL
  have hdrop : ∃ w, (x ++ strL "...").dropWhile isWS = w ++ strL "..." := by
    induction x with
    | nil => exact ⟨[], by decide⟩
    | cons c x' ih =>
      by_cases hc : isWS c
      · simpa [List.dropWhile_cons, hc] using ih
      · exact ⟨c :: x', by simp [List.dropWhile_cons, hc]⟩
  obtain ⟨w, hw⟩ := hdrop
  refine ⟨w, ?_⟩
  rw [hw]
  unfold dropEndWS
  rw [List.reverse_append]
  have : (strL "...").reverse = strL "..." := by decide
  rw [this]
  rw [show (strL "..." ++ w.reverse).dropWhile isWS = strL "..." ++ w.reverse from by
    simp [strL, List.dropWhile_cons, isWS]]
  rw [List.reverse_append, List.reverse_reverse]
  simp [strL]

theorem jsOrS_nil_right (a : Str) : jsOrS a [] = a := by
  unfold jsOrS
  split <;> simp_all

theorem jsOrS_eq_self_of_ne_nil {a : Str} (h : a ≠ []) (b : Str) : jsOrS a b = a := by
  unfold jsOrS
  simp [h]

theorem jsOrS_ne_nil (a : Str) {b : Str} (hb : b ≠ []) : jsOrS a b ≠ [] := by
  unfold jsOrS
  split <;> simp_all

theorem jsOrS_jsOrS (a b : Str) : jsOrS (jsOrS a b) b = jsOrS a b := by
  unfold jsOrS
  split_ifs <;> simp_all

theorem jsOrOpt_jsOrOpt (a : Option Str) (b : Str) :
    jsOrOpt (some (jsOrOpt a b)) b = jsOrOpt a b := by
  cases a
  · show jsOrS b b = b
    unfold jsOrS
    split <;> simp_all
  · exact jsOrS_jsOrS _ b

theorem titleTrunc_length_le (t1 : Str) : (titleTrunc t1).length ≤ 100 := by
  unfold titleTrunc
  split_ifs with h
  · rw [List.length_append, List.length_take]
    have hd : (strL "...").length = 3 := by decide
    omega
  · omega

theorem repairTitle_trim_fix (t o : Str) : trimL (repairTitle t o) = repairTitle t o := by
  unfold repairTitle
  exact trimL_trimL _

theorem repairTitle_length_le (t o : Str) : (repairTitle t o).length ≤ 100 := by
  unfold repairTitle
  exact le_trans (length_trimL_le _) (titleTrunc_length_le _)

theorem repairTitle_fix (t o : Str) : repairTitle (repairTitle t o) o = repairTitle t o := by
  have hfix := repairTitle_trim_fix t o
  have hlen := repairTitle_length_le t o
  have hshort : (repairTitle t o).length < 2 →
      repairTitle t o = trimL ((trimL o).take 20) := by
    intro hs
    unfold repairTitle titleFallback at hs ⊢
    by_cases h1 : (trimL (jsOrS t [])).length < 2
    · rw [if_pos h1]
      unfold titleTrunc
      rw [if_neg (by rw [List.length_take]; omega)]
    · exfalso
      rw [if_neg h1] at hs
      unfold titleTrunc at hs
      by_cases h3 : 100 < (jsOrS t []).length
      · rw [if_pos h3] at hs
        obtain ⟨w, hw⟩ := trimL_append_dots ((jsOrS t []).take 97)
        rw [hw, List.length_append] at hs
        have hd : (strL "...").length = 3 := by decide
        omega
      · rw [if_neg h3] at hs
        exact h1 (by omega)
  generalize hr : repairTitle t o = r at hfix hlen hshort ⊢
  show repairTitle r o = r
  unfold repairTitle titleFallback
  rw [jsOrS_nil_right, hfix]
  by_cases h2 : r.length < 2
  · rw [if_pos h2]
    unfold titleTrunc
    rw [if_neg (by rw [List.length_take]; omega)]
    exact (hshort h2).symm
  · rw [if_neg h2]
    unfold titleTrunc
    rw [if_neg (by omega), hfix]

/-! ## Claim theorems -/

/-- C1: the claim states that a model-supplied `due_date` string that does not
parse as an absolute date is dropped: the result's due date is `null`.  The
code does not do this — date-fns `parseISO` returns an Invalid Date instead of
throwing, `isBefore` on an Invalid Date is `false`, so the malformed string is
kept and the default time is appended, contradicting the claim and the
source's own comment at the `catch` site ("on date parsing failure, set to
null").  This theorem evaluates the post-processor at such an input: every
other field is populated as described, but the due date is the malformed
string with `"T09:00:00"` appended rather than `null`. -/
theorem c1_unparseable_date_kept :
    parseISO (strL "not-a-date") = none ∧
    postprocessTodoData c1Input (strL "buy milk") (strL "2025-10-12") 1760270400000 =
      { title := strL "Buy milk", description := strL "buy milk",
        priority := strL "medium", category := strL "기타",
        due_date := some (strL "not-a-dateT09:00:00") } := by
  constructor
  · decide
  · decide

/-- C2: when the model's due date parses to an instant strictly before the
start of the current day, the result's due date is the caller's current date
with the model's returned time preserved (defaulting to 09:00); a parsed date
at or after the start of the current day is kept as given. -/
theorem c2_past_date_repair (pt : ParsedTodo) (orig currentDate : Str) (now t : Int)
    (hparse : parseISO pt.due_date = some t) :
    (t < startOfDayI now →
      (postprocessTodoData pt orig currentDate now).due_date =
        some (currentDate ++ strL "T" ++ jsOrOpt pt.due_time (strL "09:00") ++ strL ":00")) ∧
    (startOfDayI now ≤ t →
      (postprocessTodoData pt orig currentDate now).due_date =
        some (pt.due_date ++ strL "T" ++ jsOrOpt pt.due_time (strL "09:00") ++ strL ":00")) := by
  have hne : pt.due_date ≠ [] := by
    intro h
    rw [h] at hparse
    simp [parseISO] at hparse
  refine ⟨fun h => ?_, fun h => ?_⟩
  · simp [postprocessTodoData, repairDueDate, hne, hparse, isBeforeJ, h]
  · simp [postprocessTodoData, repairDueDate, hne, hparse, isBeforeJ, not_lt.mpr h]

/-- Witness for C2: a model date three days in the past (2025-10-09, time
15:00) against the current day 2025-10-12 yields due date
`2025-10-12T15:00:00`. -/
theorem c2_witness :
    parseISO (strL "2025-10-09") = some 1759968000000 ∧
    (1759968000000 : Int) < startOfDayI 1760270400000 ∧
    (postprocessTodoData c2Input (strL "orig text") (strL "2025-10-12")
        1760270400000).due_date = some (strL "2025-10-12T15:00:00") := by
  refine ⟨by decide, by decide, ?_⟩
  have h := (c2_past_date_repair c2Input (strL "orig text") (strL "2025-10-12")
      1760270400000 1759968000000 (by decide)).1 (by decide)
  rw [h]
  decide

/-- C9: whenever the model's due date parses, the result's due date carries a
time-of-day component even when the model supplied no time: both the past-date
repair branch and the keep branch append `"T09:00:00"`, so a present due date
is never date-only. -/
theorem c9_default_time (pt : ParsedTodo) (orig currentDate : Str) (now t : Int)
    (hparse : parseISO pt.due_date = some t) (htime : pt.due_time = none) :
    (postprocessTodoData pt orig currentDate now).due_date =
      some ((if t < startOfDayI now then currentDate else pt.due_date) ++
        strL "T09:00:00") := by
  have hne : pt.due_date ≠ [] := by
    intro h
    rw [h] at hparse
    simp [parseISO] at hparse
  have hts : strL "T" ++ (strL "09:00" ++ strL ":00") = strL "T09:00:00" := by decide
  by_cases h : t < startOfDayI now
  · rw [if_pos h]
    simp [postprocessTodoData, repairDueDate, hne, hparse, isBeforeJ, h, htime,
      jsOrOpt, List.append_assoc, hts]
  · rw [if_neg h]
    simp [postprocessTodoData, repairDueDate, hne, hparse, isBeforeJ, h, htime,
      jsOrOpt, List.append_assoc, hts]

/-- Witness for C9: a future due date (2025-10-20) with no model time yields
`2025-10-20T09:00:00`. -/
theorem c9_witness :
    parseISO (strL "2025-10-20") = some 1760918400000 ∧
    (postprocessTodoData c9Input (strL "dentist") (strL "2025-10-12")
        1760270400000).due_date = some (strL "2025-10-20T09:00:00") := by
  refine ⟨by decide, ?_⟩
  have h := c9_default_time c9Input (strL "dentist") (strL "2025-10-12")
      1760270400000 1760918400000 (by decide) (by decide)
  rw [h]
  decide

/-- C4, counterexample: the post-processor is not idempotent.  Feeding its own
output (with the combined due date string in the `due_date` slot) through a
second pass appends another `"T09:00:00"` to the already-combined due date, so
the second result differs from the first. -/
theorem c4_twice_differs :
    postprocessTodoData
        (toParsed (postprocessTodoData c4Input (strL "prepare the team meeting")
          (strL "2025-10-12") 1760270400000))
        (strL "prepare the team meeting") (strL "2025-10-12") 1760270400000 ≠
      postprocessTodoData c4Input (strL "prepare the team meeting")
        (strL "2025-10-12") 1760270400000 := by
  decide

/-- C4, amended: the post-processor is idempotent on the title, priority,
category and description fields, and fully idempotent on results whose due
date is `null`; only a present (combined) due date string is changed by a
second pass. -/
theorem c4_amended_idempotence (pt : ParsedTodo) (orig currentDate : Str) (now : Int) :
    (postprocessTodoData (toParsed (postprocessTodoData pt orig currentDate now))
        orig currentDate now).title =
      (postprocessTodoData pt orig currentDate now).title ∧
    (postprocessTodoData (toParsed (postprocessTodoData pt orig currentDate now))
        orig currentDate now).priority =
      (postprocessTodoData pt orig currentDate now).priority ∧
    (postprocessTodoData (toParsed (postprocessTodoData pt orig currentDate now))
        orig currentDate now).category =
      (postprocessTodoData pt orig currentDate now).category ∧
    (postprocessTodoData (toParsed (postprocessTodoData pt orig currentDate now))
        orig currentDate now).description =
      (postprocessTodoData pt orig currentDate now).description ∧
    ((postprocessTodoData pt orig currentDate now).due_date = none →
      postprocessTodoData (toParsed (postprocessTodoData pt orig currentDate now))
          orig currentDate now =
        postprocessTodoData pt orig currentDate now) := by
  have ht := repairTitle_fix pt.title orig
  have hp := jsOrS_jsOrS pt.priority (strL "medium")
  have hc := jsOrS_jsOrS pt.category (strL "기타")
  have hd := jsOrOpt_jsOrOpt pt.description (jsOrS orig [])
  simp only [postprocessTodoData, toParsed]
  refine ⟨ht, hp, hc, hd, fun hnone => ?_⟩
  rw [hnone]
  simp only [Option.getD_none, ProcessedTodo.mk.injEq]
  exact ⟨ht, hd, hp, hc, by simp [repairDueDate]⟩

/-- Witness for C4 (amended): on an output with a `null` due date, a second
pass reproduces the first result exactly. -/
theorem c4_amended_witness :
    postprocessTodoData
        (toParsed (postprocessTodoData c4NullInput (strL "water plants")
          (strL "2025-10-12") 1760270400000))
        (strL "water plants") (strL "2025-10-12") 1760270400000 =
      postprocessTodoData c4NullInput (strL "water plants") (strL "2025-10-12")
        1760270400000 :=
  (c4_amended_idempotence c4NullInput (strL "water plants") (strL "2025-10-12")
      1760270400000).2.2.2.2 (by decide)

/-- C5: on the normalized text, validation checks run in the fixed order
empty, too short (trimmed length below 2), too long (length above 500), no
meaningful content (no letter and no digit), short-circuiting on the first
failure, and an input failing none of them is accepted. -/
theorem c5_validation_order (isLN : Char → Bool) (raw : Str) :
    validateInput isLN (preprocessInput raw) =
      validateInputSpec isLN (preprocessInput raw) := by
  generalize preprocessInput raw = s
  unfold validateInput validateInputSpec
  by_cases h1 : trimL s = []
  · rw [if_pos h1, if_pos (Or.inr (by rw [h1]; rfl))]
  · have hlen0 : (trimL s).length ≠ 0 := fun h => h1 (List.length_eq_zero.mp h)
    have hs : s ≠ [] := fun h => h1 (by rw [h]; rfl)
    rw [if_neg h1, if_neg (by push_neg; exact ⟨hs, hlen0⟩)]
    by_cases h2 : (trimL s).length < 2
    · rw [if_pos h2, if_pos h2]
    · rw [if_neg h2, if_neg h2]
      by_cases h3 : 500 < s.length
      · rw [if_pos h3, if_pos h3]
      · rw [if_neg h3, if_neg h3]
        by_cases h4 : (trimL s).all (fun c => !(isLN c)) = true
        · rw [if_pos h4, if_pos ⟨h1, h4⟩]
        · rw [if_neg h4, if_neg (fun hc => h4 hc.2)]

theorem getDayI_nonneg (t : Int) : 0 ≤ getDayI t :=
  Int.emod_nonneg _ (by decide)

theorem getDayI_lt_seven (t : Int) : getDayI t < 7 :=
  Int.emod_lt_of_pos _ (by decide)

theorem getDayI_addDaysI (t k : Int) : getDayI (addDaysI t k) = (getDayI t + k) % 7 := by
  unfold getDayI addDaysI epochDay msPerDay
  omega

/-- The spec-side nearest Friday really is the nearest Friday at or after
`now`: it falls on weekday 5, at or after `now`, within seven days. -/
theorem specNearestFriday_char (now : Int) :
    getDayI (specNearestFriday now) = 5 ∧ now ≤ specNearestFriday now ∧
      specNearestFriday now < addDaysI now 7 := by
  have h0 := getDayI_nonneg now
  have h7 := getDayI_lt_seven now
  unfold specNearestFriday
  refine ⟨?_, ?_, ?_⟩
  · rw [getDayI_addDaysI]
    omega
  · unfold addDaysI msPerDay
    omega
  · unfold addDaysI msPerDay
    omega

/-- The spec-side next Monday really is the next Monday strictly after `now`:
it falls on weekday 1, strictly after `now`, within seven days. -/
theorem specNextMonday_char (now : Int) :
    getDayI (specNextMonday now) = 1 ∧ now < specNextMonday now ∧
      specNextMonday now ≤ addDaysI now 7 := by
  have h0 := getDayI_nonneg now
  have h7 := getDayI_lt_seven now
  unfold specNextMonday
  refine ⟨?_, ?_, ?_⟩
  · rw [getDayI_addDaysI]
    split_ifs <;> omega
  · unfold addDaysI msPerDay
    split_ifs <;> omega
  · unfold addDaysI msPerDay
    split_ifs <;> omega

/-- C3, counterexample: on a Sunday (1970-01-04, weekday 0), the code's "next
Monday" is `now + 8` days — the second Monday after `now` — while the next
calendar Monday strictly after `now` is `now + 1` day. -/
theorem c3_sunday_counterexample :
    getDayI (3 * msPerDay) = 0 ∧
    specNextMonday (3 * msPerDay) = addDaysI (3 * msPerDay) 1 ∧
    nextMondayI (3 * msPerDay) = addDaysI (3 * msPerDay) 8 ∧
    nextMondayI (3 * msPerDay) ≠ specNextMonday (3 * msPerDay) := by
  refine ⟨by decide, by decide, by decide, by decide⟩

/-- C3, amended: tomorrow is `now + 1` day, day-after-tomorrow is `now + 2`
days, "this Friday" is the nearest Friday at or after `now`, and "next
Monday" is the next Monday strictly after `now` on every weekday except
Sunday; when `now` is a Sunday the computed value is `now + 8` days (the
second Monday after `now`). -/
theorem c3_amended_temporal_context (now : Int) :
    tomorrowI now = now + msPerDay ∧
    dayAfterTomorrowI now = now + 2 * msPerDay ∧
    thisWeekFridayI now = specNearestFriday now ∧
    (getDayI now ≠ 0 → nextMondayI now = specNextMonday now) ∧
    (getDayI now = 0 → nextMondayI now = now + 8 * msPerDay) := by
  have h0 := getDayI_nonneg now
  have h7 := getDayI_lt_seven now
  refine ⟨?_, ?_, ?_, fun hne => ?_, fun hz => ?_⟩
  · unfold tomorrowI addDaysI
    ring
  · unfold dayAfterTomorrowI addDaysI
    ring
  · simp only [thisWeekFridayI, daysUntilFriday, specNearestFriday, addDaysI, msPerDay]
    split_ifs <;> omega
  · simp only [nextMondayI, daysUntilNextMonday, specNextMonday, addDaysI, msPerDay]
    split_ifs <;> omega
  · simp only [nextMondayI, daysUntilNextMonday, addDaysI, msPerDay]
    split_ifs <;> omega

/-- Witness for C3 (amended): on the Wednesday 1970-01-07, "next Monday"
computes to `now + 5` days, as the claim's Wednesday instance demands. -/
theorem c3_amended_witness :
    getDayI 518400000 = 3 ∧ nextMondayI 518400000 = 518400000 + 5 * msPerDay := by
  refine ⟨by decide, ?_⟩
  have h := (c3_amended_temporal_context 518400000).2.2.2.1 (by decide)
  rw [h]
  decide

theorem ceilDiv_le_one_iff (a : Int) : ceilDiv a msPerDay ≤ 1 ↔ a ≤ msPerDay := by
  unfold ceilDiv msPerDay
  omega

theorem isUrgent_eq_spec (now : Int) (td : TodoRow) :
    isUrgent now td = urgentSpecB now td := by
  by_cases hcm : td.completed = true
  · simp [isUrgent, urgentSpecB, hcm]
  · by_cases hpr : td.priority = strL "high"
    · simp [isUrgent, urgentSpecB, hcm, hpr]
    · cases hd : td.due_date with
      | none => simp [isUrgent, urgentSpecB, dueInstant, jsTruthy, hcm, hpr, hd]
      | some ds =>
        by_cases hds : ds = []
        · subst hds
          simp [isUrgent, urgentSpecB, dueInstant, jsTruthy, hcm, hpr, hd, parseISO]
        · cases hpar : parseISO ds with
          | none =>
            simp [isUrgent, urgentSpecB, dueInstant, jsTruthy, hcm, hpr, hd, hds, hpar]
          | some t =>
            simp [isUrgent, urgentSpecB, dueInstant, jsTruthy, hcm, hpr, hd, hds, hpar]
            rw [ceilDiv_le_one_iff]
            omega

/-- C6: the urgent-task list computed ahead of the model call consists exactly
of the titles of the in-period tasks that are incomplete and either
high-priority or due within one day of `now` (due instant at most `now` plus
one day; an already-overdue task is due within one day).  In particular a
completed task is never urgent, and an incomplete task that is neither
high-priority nor due within one day is never urgent. -/
theorem c6_urgent_set (filteredTodos : List TodoRow) (now : Int) :
    urgentTasks filteredTodos now =
      (filteredTodos.filter (urgentSpecB now)).map (fun td => td.title) ∧
    ∀ td, isUrgent now td = urgentSpecB now td := by
  constructor
  · unfold urgentTasks
    congr 1
    exact List.filter_congr (fun td _ => isUrgent_eq_spec now td)
  · exact isUrgent_eq_spec now

theorem onTimeCondition_eq (now t : Int) :
    (!decide (now < t) || decide (t < now)) = decide (t ≤ now) := by
  by_cases h : t ≤ now
  · by_cases h2 : t < now
    · simp [h, h2]
    · have h1 : ¬ now < t := by omega
      simp [h, h1]
  · have h1 : now < t := by omega
    have h2 : ¬ t < now := by omega
    simp [h, h1, h2]

theorem isOnTime_eq_compliantSpec (now : Int) (td : TodoRow) (ds : Str) (t : Int)
    (hds : td.due_date = some ds) (hpar : parseISO ds = some t) :
    isOnTime now td = compliantSpec now td := by
  unfold isOnTime compliantSpec
  simp only [dueInstant, hds, Option.getD_some, hpar]
  by_cases hcm : td.completed = true
  · simp only [hcm, Bool.not_true, Bool.false_eq_true, if_false, Bool.true_and]
    exact onTimeCondition_eq now t
  · simp [hcm]

/-- C7: over snapshots in which every present due date string parses (as the
data model guarantees), the source's on-time test `!isAfter(due, now) ||
isBefore(due, now)` coincides with the simple semantics `completed ∧ due ≤
now`, and the deadline compliance rate equals the number of compliant tasks
divided by the number of tasks with a due instant, times 100 (zero when no
task has a due instant). -/
theorem c7_deadline_compliance (todos : List TodoRow) (now : Int)
    (hwf : ∀ td ∈ todos, td.due_date.isSome → (dueInstant td).isSome) :
    (∀ td ∈ todos, ∀ t, dueInstant td = some t →
        isOnTime now td = (td.completed && decide (t ≤ now))) ∧
    deadlineComplianceRate todos now = deadlineComplianceRateSpec todos now := by
  constructor
  · intro td _ t hti
    cases hd : td.due_date with
    | none => simp [dueInstant, hd] at hti
    | some ds =>
      simp only [dueInstant, hd] at hti
      rw [isOnTime_eq_compliantSpec now td ds t hd hti]
      simp only [compliantSpec, dueInstant, hd, hti]
  · have hfilter : todosWithDueDate todos =
        todos.filter (fun td => (dueInstant td).isSome) := by
      unfold todosWithDueDate
      apply List.filter_congr
      intro td htd
      cases hd : td.due_date with
      | none => simp [jsTruthy, dueInstant, hd]
      | some ds =>
        have hws := hwf td htd (by rw [hd]; rfl)
        simp only [dueInstant, hd] at hws
        have hne : ds ≠ [] := by
          intro hnil
          rw [hnil] at hws
          exact absurd hws (by decide)
        simp [jsTruthy, dueInstant, hd, hne, hws]
    have hot : (todosWithDueDate todos).filter (isOnTime now) =
        (todosWithDueDate todos).filter (compliantSpec now) := by
      apply List.filter_congr
      intro td htd
      obtain ⟨htodos, hjt⟩ := List.mem_filter.mp
        (show td ∈ todos.filter (fun td => jsTruthy td.due_date) from htd)
      cases hd : td.due_date with
      | none => rw [hd] at hjt; simp [jsTruthy] at hjt
      | some ds =>
        have hws := hwf td htodos (by rw [hd]; rfl)
        simp only [dueInstant, hd] at hws
        cases hpar : parseISO ds with
        | none => rw [hpar] at hws; exact absurd hws (by decide)
        | some t => exact isOnTime_eq_compliantSpec now td ds t hd hpar
    simp only [deadlineComplianceRate, deadlineComplianceRateSpec]
    rw [← hfilter, hot]
    by_cases hz : (todosWithDueDate todos).length = 0
    · rw [if_neg (by omega), if_pos hz]
    · rw [if_pos (by omega), if_neg hz]

/-- Witness for C7: on a concrete two-task snapshot (one completed task due in
the past, one open task due in the future) the code's rate agrees with the
specification's rate, and both are 50%. -/
theorem c7_witness :
    deadlineComplianceRate c7Todos 1760270400000 =
      deadlineComplianceRateSpec c7Todos 1760270400000 ∧
    deadlineComplianceRate c7Todos 1760270400000 = 50 := by
  constructor
  · exact (c7_deadline_compliance c7Todos 1760270400000 (by decide)).2
  · have h1 : (todosWithDueDate c7Todos).length = 2 := by decide
    have h2 : ((todosWithDueDate c7Todos).filter (isOnTime 1760270400000)).length = 1 := by
      decide
    simp only [deadlineComplianceRate, h1, h2]
    norm_num

/-- C8: when a summarize request passes the API-key, body and authentication
checks but the owner has no task in the requested period, the route returns
the canned empty-period summary — localized synopsis, empty urgent-task,
insight and recommendation lists — after exactly one record-store read and
with zero model invocations. -/
theorem c8_empty_period_short_circuit (env : SummarizeEnv) (body : SummarizeBody)
    (p uid : Str) (todoList : List TodoRow)
    (hkey1 : env.apiKey ≠ []) (hkey2 : startsWithJ (strL "AIza") env.apiKey = true)
    (hbody : env.body = some body) (hperiod : body.period = some p)
    (hpv : p = strL "today" ∨ p = strL "week")
    (huid : body.userId = some uid) (huidne : uid ≠ [])
    (hauth : env.authUser = some uid)
    (hstore : env.todosResult = Except.ok todoList)
    (hempty : filterTodosByPeriod todoList (periodStartOf env.now p)
        (periodEndOf env.now p) = []) :
    summarizePost env = (.success (emptySummary p), 1, 0) := by
  have hpv' : ¬(p ≠ strL "today" ∧ p ≠ strL "week") := by
    rcases hpv with h | h <;> simp [h]
  simp [summarizePost, hkey1, hkey2, hbody, hperiod, huid, hauth, hstore, hempty,
    hpv', huidne]

/-- Witness for C8: a concrete environment with a valid key, a valid body, a
matching session user and an empty task list produces the canned empty
response with one store read and zero model calls. -/
theorem c8_witness :
    summarizePost c8Env = (.success (emptySummary (strL "today")), 1, 0) :=
  c8_empty_period_short_circuit c8Env
    { period := some (strL "today"), userId := some (strL "user-1") }
    (strL "today") (strL "user-1") []
    (by decide) (by decide) rfl rfl (Or.inl rfl) rfl (by decide) rfl rfl rfl

/-- C10: when a summarize request passes the API-key and body checks but there
is no valid session, or the session user's id differs from the requested
`userId`, the route fails with HTTP 401 having performed zero record-store
reads and zero model invocations — no statistics are computed or returned. -/
theorem c10_auth_rejected (env : SummarizeEnv) (body : SummarizeBody) (p uid : Str)
    (hkey1 : env.apiKey ≠ []) (hkey2 : startsWithJ (strL "AIza") env.apiKey = true)
    (hbody : env.body = some body) (hperiod : body.period = some p)
    (hpv : p = strL "today" ∨ p = strL "week")
    (huid : body.userId = some uid) (huidne : uid ≠ [])
    (hauth : env.authUser = none ∨ ∃ u, env.authUser = some u ∧ u ≠ uid) :
    summarizePost env = (.failure 401, 0, 0) := by
  have hpv' : ¬(p ≠ strL "today" ∧ p ≠ strL "week") := by
    rcases hpv with h | h <;> simp [h]
  rcases hauth with h | ⟨u, hu, hne⟩
  · simp [summarizePost, hkey1, hkey2, hbody, hperiod, huid, huidne, hpv', h]
  · simp [summarizePost, hkey1, hkey2, hbody, hperiod, huid, huidne, hpv', hu, hne]

/-- Witness for C10: a concrete environment whose session user `user-2`
differs from the requested `user-1` is rejected with 401 before any store
read or model call. -/
theorem c10_witness : summarizePost c10Env = (.failure 401, 0, 0) :=
  c10_auth_rejected c10Env
    { period := some (strL "week"), userId := some (strL "user-1") }
    (strL "week") (strL "user-1")
    (by decide) (by decide) rfl rfl (Or.inr rfl) rfl (by decide)
    (Or.inr ⟨strL "user-2", rfl, by decide⟩)

end AITodo
